import Mathlib

/-!
# Verification of the quizgenerator core pipeline

Shallow embedding of the quiz-generation core (Go package `quizgenerator`):
the data model (`models.go`), the question pool (`questionpool.go`), the
checker (`CheckQuestion`), the deduper (`CheckDuplicate`), the answer-order
shuffle (`randomizeAnswerOrder`) and the streaming orchestrator
(`GenerateQuizStream` / `GenerateQuiz`).

External effects are made explicit:
* LLM (gateway) replies are an oracle: one reply stream per stage, indexed by
  that stage's call counter.  A reply is either a gateway error (transport,
  protocol or parse failure all collapse to `err`, which the Go code treats
  identically) or the parsed tool-call arguments.
* `rand.Intn(n)` values are oracle-supplied naturals reduced `% n`
  (`Intn` always returns a value in `[0, n)`).
* `time.Now()` is a tick counter threaded through the state.
* Go runtime panics (negative channel buffer in `make`, nil-pointer
  dereference) are modelled by `Option`: `none` is a panic.
* The outbound channel is modelled by the list of questions sent on it, in
  send order.  The channel is buffered to the request size and at most that
  many sends happen, so a send never blocks; a caller cancellation merely
  stops the producer loop early, which the finite fuel of the loop model
  already covers.  Per-run log files are not modelled (write-only).
-/

namespace Quizgenerator

/-! ## Data model (`models.go`) -/

/-- `QuestionStatus` is a string type in Go. -/
def StatusTentative : String := "tentative"

def StatusAccepted : String := "accepted"

def StatusRejected : String := "rejected"

def StatusRevised : String := "revised"

/-- `ValidationAction` is a string type in Go. -/
def ActionAccept : String := "accept"

def ActionReject : String := "reject"

def ActionRevise : String := "revise"

/-- `Question` from `models.go`.  Go `int` fields are `Int` (LLM-supplied
`correct_answer` can be any integer); `CreatedAt` is a tick. -/
structure Question where
  ID : String
  Text : String
  Options : List String
  CorrectAnswer : Int
  Explanation : String
  Topic : String
  CreatedAt : Nat
  Status : String
  RevisionCount : Int
deriving Repr, DecidableEq

/-- `ValidationResult` from `models.go`. -/
structure ValidationResult where
  QuestionID : String
  Reason : String
  Action : String
  RevisedQuestion : Option Question
deriving Repr, DecidableEq

/-- `DedupResult` from `questiondedup.go`. -/
structure DedupResult where
  IsDuplicate : Bool
  Reason : String
  DuplicateID : String
deriving Repr, DecidableEq

/-- `GenerationRequest` from `models.go`. -/
structure GenerationRequest where
  Topic : String
  NumQuestions : Int
  SourceMaterial : String
  Difficulty : String
deriving Repr, DecidableEq

/-- `Quiz` from `models.go`. -/
structure Quiz where
  ID : String
  Topic : String
  Questions : List Question
  CreatedAt : Nat
  TotalQuestions : Int
deriving Repr, DecidableEq

/-! ## Go map of questions, as an association list

The pool and the deduper keep a `map[string]*Question`.  Only
lookup/insert/delete semantics matter (iteration order feeds prompts only),
so the map is an association list kept duplicate-free by construction. -/

/-- Lookup: Go `m[id]` (missing key yields the zero value `nil`, hence
`none`). -/
def lookupQ : List (String × Question) → String → Option Question
  | [], _ => none
  | (k, v) :: t, id => if k = id then some v else lookupQ t id

/-- Go `delete(m, id)`. -/
def mapErase : List (String × Question) → String → List (String × Question)
  | [], _ => []
  | (k, v) :: t, id => if k = id then mapErase t id else (k, v) :: mapErase t id

/-- Go `m[id] = q`. -/
def mapInsert (l : List (String × Question)) (id : String) (q : Question) :
    List (String × Question) :=
  (id, q) :: mapErase l id

/-! ## Question pool (`questionpool.go`) -/

/-- `QuestionPool`: an id-keyed map plus a FIFO queue of ids. -/
structure QuestionPool where
  questions : List (String × Question)
  queue : List String
deriving Repr, DecidableEq

/-- `NewQuestionPool`. -/
def NewQuestionPool : QuestionPool := { questions := [], queue := [] }

/-- `Add`: sets the question's status to tentative, stamps `CreatedAt` with
the current time (tick `now`), stores it under its id and appends the id to
the queue. -/
def QuestionPool.Add (qp : QuestionPool) (question : Question) (now : Nat) :
    QuestionPool :=
  let q := { question with Status := StatusTentative, CreatedAt := now }
  { questions := mapInsert qp.questions question.ID q,
    queue := qp.queue ++ [question.ID] }

/-- `Get`: pops the head id off the queue and returns (and deletes) the
mapped question; `nil` (`none`) on an empty queue or a missing id. -/
def QuestionPool.Get (qp : QuestionPool) : Option Question × QuestionPool :=
  match qp.queue with
  | [] => (none, qp)
  | questionID :: rest =>
      (lookupQ qp.questions questionID,
       { questions := mapErase qp.questions questionID, queue := rest })

/-- `Remove`: deletes the id from the map and the first matching queue
entry. -/
def QuestionPool.Remove (qp : QuestionPool) (questionID : String) :
    QuestionPool :=
  { questions := mapErase qp.questions questionID,
    queue := qp.queue.erase questionID }

/-- `Size`. -/
def QuestionPool.Size (qp : QuestionPool) : Nat := qp.queue.length

/-- `IsEmpty`. -/
def QuestionPool.IsEmpty (qp : QuestionPool) : Bool := qp.Size == 0

/-! ## Answer-order randomization (`quizgenerator.go:354-381`) -/

/-- Go parallel assignment `l[i], l[j] = l[j], l[i]` (indices always in
range at call sites). -/
def listSwap (l : List Nat) (i j : Nat) : List Nat :=
  match l.get? i, l.get? j with
  | some a, some b => (l.set i b).set j a
  | _, _ => l

/-- The Fisher–Yates loop of `randomizeAnswerOrder` on `[0,1,2,3]`:
`for i := 3; i > 0; i-- { j := rand.Intn(i+1); swap }`, with the three
`rand.Intn` draws supplied as `r3 % 4`, `r2 % 3`, `r1 % 2`. -/
def fyIndices (r3 r2 r1 : Nat) : List Nat :=
  listSwap (listSwap (listSwap [0, 1, 2, 3] 3 (r3 % 4)) 2 (r2 % 3)) 1 (r1 % 2)

/-- The loop `for i, oldIndex := range indices { if oldIndex ==
question.CorrectAnswer { newCorrectAnswer = i } }` starting from the Go zero
value `0`. -/
def findNewCA (indices : List Nat) (ca : Int) : Int :=
  (indices.enum).foldl
    (fun acc p => if (p.2 : Int) = ca then (p.1 : Int) else acc) 0

/-- `randomizeAnswerOrder`: skip unless exactly 4 options; otherwise reorder
the options by a Fisher–Yates permutation of `[0,1,2,3]` and recompute the
correct-answer index.  `newOptions[i] = question.Options[oldIndex]` is the
`map` below (indices are always in range, so `getD` never defaults). -/
def randomizeAnswerOrder (question : Question) (r3 r2 r1 : Nat) : Question :=
  if question.Options.length ≠ 4 then question
  else
    let indices := fyIndices r3 r2 r1
    { question with
        Options := indices.map (fun oldIndex => question.Options.getD oldIndex ""),
        CorrectAnswer := findNewCA indices question.CorrectAnswer }

/-! ## Gateway oracle

Each LLM-backed stage consumes one reply per gateway call.  `err` stands for
any failed call (transport error, empty choices, missing/mismatched tool
call, or unparsable arguments): the Go code returns a non-nil error in all
of those cases and the callers only test `err != nil`. -/

/-- Parsed `submit_questions` item (`QuestionMaker`): one element of the
`questions` array of the tool-call arguments. -/
structure RawQuestion where
  text : String
  options : List String
  correctAnswer : Int
  explanation : String
deriving Repr, DecidableEq

/-- One maker gateway outcome. -/
inductive MakerReply where
  | err : MakerReply
  | reply (questions : List RawQuestion) : MakerReply
deriving Repr, DecidableEq

/-- Parsed `revised_question` payload of the checker's `evaluate_question`
tool call. -/
structure RevisedPayload where
  text : String
  options : List String
  correctAnswer : Int
  explanation : String
deriving Repr, DecidableEq

/-- One checker gateway outcome (`action` is the raw string the LLM chose;
the schema suggests accept/reject/revise but nothing enforces it). -/
inductive CheckerReply where
  | err : CheckerReply
  | reply (reason action : String) (revised : Option RevisedPayload) : CheckerReply
deriving Repr, DecidableEq

/-- One deduper gateway outcome (`check_duplicate` tool arguments). -/
inductive DedupReply where
  | err : DedupReply
  | reply (isDuplicate : Bool) (reason duplicateId : String) : DedupReply
deriving Repr, DecidableEq

/-- The environment of one run: the gateway reply streams (indexed by each
stage's own call counter), the `rand` draws for the option shuffle, and the
random ids handed out by `generateQuestionID`. -/
structure Oracle where
  maker : Nat → MakerReply
  checker : Nat → CheckerReply
  dedup : Nat → DedupReply
  shuffle : Nat → Nat × Nat × Nat
  freshId : Nat → String

/-! ## Question checker (`CheckQuestion`, part_006) -/

/-- `CheckQuestion`: cap-reject without a gateway call at
`RevisionCount >= 3`, otherwise consult the gateway.  Returns the result
(`none` = the Go `(nil, err)` return) and whether the gateway was called. -/
def CheckQuestion (question : Question) (reply : CheckerReply) :
    Option ValidationResult × Bool :=
  if question.RevisionCount ≥ 3 then
    (some { QuestionID := question.ID,
            Action := ActionReject,
            Reason := "Question rejected after " ++ toString question.RevisionCount
              ++ " revision attempts to prevent infinite loop",
            RevisedQuestion := none },
     false)
  else
    match reply with
    | .err => (none, true)
    | .reply reason action revised =>
        let revisedQuestion : Option Question :=
          if action = ActionRevise then
            revised.map (fun rp =>
              { ID := question.ID,            -- Keep same ID
                Text := rp.text,
                Options := rp.options,
                CorrectAnswer := rp.correctAnswer,
                Explanation := rp.explanation,
                Topic := question.Topic,
                CreatedAt := 0,               -- zero time.Time
                Status := StatusRevised,
                RevisionCount := question.RevisionCount + 1 })
          else none
        (some { QuestionID := question.ID, Action := action, Reason := reason,
                RevisedQuestion := revisedQuestion },
         true)

/-! ## Question deduper (`CheckDuplicate`, questiondedup.go) -/

/-- `CheckDuplicate`: seed-accept on an empty cache without a gateway call,
otherwise consult the gateway and cache the candidate exactly on a
non-duplicate verdict.  Returns the result (`none` = error), the new cache
and whether the gateway was called. -/
def CheckDuplicate (cache : List (String × Question)) (question : Question)
    (reply : DedupReply) :
    Option DedupResult × List (String × Question) × Bool :=
  if cache.isEmpty then
    (some { IsDuplicate := false, Reason := "First question", DuplicateID := "" },
     mapInsert cache question.ID question,
     false)
  else
    match reply with
    | .err => (none, cache, true)
    | .reply isDup reason dupId =>
        (some { IsDuplicate := isDup, Reason := reason, DuplicateID := dupId },
         if ¬isDup then mapInsert cache question.ID question else cache,
         true)

/-! ## Question maker result conversion (`GenerateQuestions`, part_000) -/

/-- The `for _, q := range toolArgs.Questions` loop: each parsed item
becomes a `Question` with a fresh id, the request's topic, tentative status
and revision count 0. -/
def makeQuestions (topic : String) (freshId : Nat → String) :
    Nat → List RawQuestion → List Question
  | _, [] => []
  | base, r :: rest =>
      { ID := freshId base,
        Text := r.text,
        Options := r.options,
        CorrectAnswer := r.correctAnswer,
        Explanation := r.explanation,
        Topic := topic,
        CreatedAt := 0,
        Status := StatusTentative,
        RevisionCount := 0 } :: makeQuestions topic freshId (base + 1) rest

/-! ## Streaming orchestrator (`GenerateQuizStream`, quizgenerator.go:229-335)

The producer goroutine is a `for acceptedCount < req.NumQuestions` loop.
One `GenState` holds everything the goroutine owns: the pool, the deduper
cache, the counters, and the questions sent on the outbound channel so far
(`emitted`).  `makerBatchLog` records the batch size of every maker request,
in order. -/

structure GenState where
  pool : QuestionPool
  dedupCache : List (String × Question)
  acceptedCount : Nat
  batchSize : Nat
  makerCalls : Nat
  checkCalls : Nat
  dedupCalls : Nat
  shuffles : Nat
  ids : Nat
  time : Nat
  emitted : List Question
  makerBatchLog : List Nat
deriving Repr, DecidableEq

/-- Goroutine-entry state: `acceptedCount := 0`, `batchSize := 5`, fresh
pool, fresh deduper cache, nothing emitted yet. -/
def initState : GenState :=
  { pool := NewQuestionPool, dedupCache := [], acceptedCount := 0,
    batchSize := 5, makerCalls := 0, checkCalls := 0, dedupCalls := 0,
    shuffles := 0, ids := 0, time := 0, emitted := [], makerBatchLog := [] }

/-- `for _, question := range questions { qg.pool.Add(question) }`, each
`Add` stamping the next tick. -/
def addBatch (pool : QuestionPool) (t : Nat) :
    List Question → QuestionPool × Nat
  | [] => (pool, t)
  | q :: rest => addBatch (pool.Add q t) (t + 1) rest

/-- Lines 254-269: refill the pool from the maker when it is empty.  The
second component is `true` when the goroutine `return`s (maker error), which
closes the channel. -/
def refillPhase (req : GenerationRequest) (oracle : Oracle) (s : GenState) :
    GenState × Bool :=
  if s.pool.IsEmpty then
    match oracle.maker s.makerCalls with
    | .err =>
        ({ s with makerCalls := s.makerCalls + 1,
                  makerBatchLog := s.makerBatchLog ++ [s.batchSize] }, true)
    | .reply raws =>
        let qs := makeQuestions req.Topic oracle.freshId s.ids raws
        let ab := addBatch s.pool s.time qs
        ({ s with pool := ab.1, time := ab.2, ids := s.ids + raws.length,
                  makerCalls := s.makerCalls + 1,
                  makerBatchLog := s.makerBatchLog ++ [s.batchSize] }, false)
  else (s, false)

/-- Lines 271-324: take one question from the pool and push it through
checker, deduper, shuffle and channel send.  The second component is `true`
when control falls through to the bottom of the loop body (lines 326-330)
and `false` when the Go code hits a `continue`, which skips the batch-size
adjustment.  The `ctx.Done()` arm of the send is not taken (see the module
comment: a cancelled run is a run that stops with less fuel). -/
def processPhase (oracle : Oracle) (s : GenState) : GenState × Bool :=
  if s.pool.IsEmpty then (s, true)
  else
    let g := s.pool.Get
    let s1 := { s with pool := g.2 }
    match g.1 with
    | none => (s1, false)                    -- question == nil: continue
    | some question =>
      let cr := CheckQuestion question (oracle.checker s1.checkCalls)
      let s2 := { s1 with checkCalls := s1.checkCalls + (if cr.2 then 1 else 0) }
      match cr.1 with
      | none =>                              -- checker error: re-enqueue, continue
          ({ s2 with pool := s2.pool.Add question s2.time, time := s2.time + 1 },
           false)
      | some validation =>
        if validation.Action = ActionAccept then
          let dr := CheckDuplicate s2.dedupCache question (oracle.dedup s2.dedupCalls)
          let s3 := { s2 with dedupCalls := s2.dedupCalls + (if dr.2.2 then 1 else 0) }
          match dr.1 with
          | none =>                          -- dedup error: re-enqueue, continue
              ({ s3 with pool := s3.pool.Add question s3.time, time := s3.time + 1 },
               false)
          | some dedupResult =>
            let s4 := { s3 with dedupCache := dr.2.1 }
            if dedupResult.IsDuplicate then (s4, false)  -- duplicate: continue
            else
              let accepted := { question with Status := StatusAccepted }
              let rnd := oracle.shuffle s4.shuffles
              let shuffled := randomizeAnswerOrder accepted rnd.1 rnd.2.1 rnd.2.2
              ({ s4 with shuffles := s4.shuffles + 1,
                         emitted := s4.emitted ++ [shuffled],
                         acceptedCount := s4.acceptedCount + 1 }, true)
        else
          -- validation.Action != ActionAccept: maybe re-enqueue revision, continue
          if validation.Action = ActionRevise then
            match validation.RevisedQuestion with
            | some revised =>
                ({ s2 with pool := s2.pool.Add revised s2.time, time := s2.time + 1 },
                 false)
            | none => (s2, false)
          else (s2, false)

/-- Outcome of one loop-body iteration: `halt` is the goroutine `return`. -/
inductive StepResult where
  | halt (s : GenState) : StepResult
  | next (s : GenState) : StepResult
deriving Repr, DecidableEq

/-- One iteration of the goroutine loop body: refill, process one question,
then lines 326-330 — `if acceptedCount == 0 { batchSize = min(batchSize+2,
10) }`, reached only when no `continue` fired. -/
def step (req : GenerationRequest) (oracle : Oracle) (s : GenState) : StepResult :=
  match refillPhase req oracle s with
  | (s1, true) => .halt s1
  | (s1, false) =>
    match processPhase oracle s1 with
    | (s2, true) =>
        if s2.acceptedCount = 0 then
          .next { s2 with batchSize := min (s2.batchSize + 2) 10 }
        else .next s2
    | (s2, false) => .next s2

/-- The goroutine loop `for acceptedCount < req.NumQuestions`, cut off after
`fuel` iterations (covering both a still-running producer and caller
cancellation). -/
def runLoop (req : GenerationRequest) (oracle : Oracle) :
    Nat → GenState → GenState
  | 0, s => s
  | fuel + 1, s =>
      if (s.acceptedCount : Int) < req.NumQuestions then
        match step req oracle s with
        | .halt s' => s'
        | .next s' => runLoop req oracle fuel s'
      else s

/-- `GenerateQuizStream` (lines 229-335): allocates the outbound channel
with buffer `req.NumQuestions` — a Go runtime panic (`none`) when that is
negative — then starts the producer and returns the channel and a `nil`
error.  The returned pair is (final producer state, returned `error`). -/
def GenerateQuizStream (req : GenerationRequest) (oracle : Oracle)
    (fuel : Nat) : Option (GenState × Option String) :=
  if req.NumQuestions < 0 then none
  else some (runLoop req oracle fuel initState, none)

/-- `GenerateQuiz` (lines 184-226): drains the stream, then copies
`acceptedQuestions[:req.NumQuestions]` into the quiz.  The slice re-extends
the backing array (capacity `req.NumQuestions`), so when fewer questions
arrived the extra entries are nil pointers and `*q` panics (`none`). -/
def GenerateQuiz (req : GenerationRequest) (oracle : Oracle) (fuel : Nat)
    (quizID : String) : Option (Option Quiz × Option String) :=
  match GenerateQuizStream req oracle fuel with
  | none => none
  | some (finalState, streamErr) =>
    match streamErr with
    | some e => some (none, some e)
    | none =>
        let acceptedQuestions := finalState.emitted
        if req.NumQuestions ≤ (acceptedQuestions.length : Int) then
          some (some { ID := quizID, Topic := req.Topic,
                       Questions := acceptedQuestions.take req.NumQuestions.toNat,
                       CreatedAt := finalState.time,
                       TotalQuestions := req.NumQuestions },
                none)
        else none

/-! ## Invariants and oracle well-formedness -/

/-- Structural well-formedness of an LLM-supplied question payload: exactly
four options and a correct-answer index in `0..3`.  The Go code never checks
this; it is a property of the gateway's output. -/
def WFRaw (r : RawQuestion) : Prop :=
  r.options.length = 4 ∧ 0 ≤ r.correctAnswer ∧ r.correctAnswer ≤ 3

/-- Structural well-formedness of a revised-question payload. -/
def WFRev (rp : RevisedPayload) : Prop :=
  rp.options.length = 4 ∧ 0 ≤ rp.correctAnswer ∧ rp.correctAnswer ≤ 3

/-- An oracle whose maker batches and checker revisions are structurally
well-formed. -/
def WFOracle (oracle : Oracle) : Prop :=
  (∀ n raws, oracle.maker n = .reply raws → ∀ r ∈ raws, WFRaw r) ∧
  (∀ n reason action rp, oracle.checker n = .reply reason action (some rp) →
    WFRev rp)

/-- Invariant of every question sitting in the pool during a run on `topic`
(assuming a well-formed oracle). -/
def QInv (topic : String) (q : Question) : Prop :=
  q.Options.length = 4 ∧ 0 ≤ q.CorrectAnswer ∧ q.CorrectAnswer ≤ 3 ∧
  0 ≤ q.RevisionCount ∧ q.RevisionCount ≤ 3 ∧ q.Topic = topic

/-- Invariant of every question emitted on the outbound channel. -/
def EInv (topic : String) (q : Question) : Prop :=
  q.Options.length = 4 ∧ 0 ≤ q.CorrectAnswer ∧ q.CorrectAnswer ≤ 3 ∧
  q.Status = StatusAccepted ∧ q.RevisionCount ≤ 3 ∧ q.Topic = topic

/-- All pool entries satisfy `QInv`. -/
def PoolInv (topic : String) (qp : QuestionPool) : Prop :=
  ∀ p ∈ qp.questions, QInv topic p.2

/-- The run invariant: pool entries satisfy `QInv`, emitted questions
satisfy `EInv`. -/
def StateInv (topic : String) (s : GenState) : Prop :=
  PoolInv topic s.pool ∧ ∀ q ∈ s.emitted, EInv topic q

/-! ## Pool scenario helpers (for the FIFO claims) -/

/-- What `QuestionPool.Add` does to the stored question. -/
def stampQ (q : Question) (t : Nat) : Question :=
  { q with Status := StatusTentative, CreatedAt := t }

/-- A sequence of `Add` calls (each with its tick). -/
def addList (p : QuestionPool) : List (Question × Nat) → QuestionPool
  | [] => p
  | (q, t) :: rest => addList (p.Add q t) rest

/-- A sequence of `Get` calls, collecting the returned values. -/
def drain (p : QuestionPool) : Nat → List (Option Question)
  | 0 => []
  | n + 1 => (p.Get).1 :: drain (p.Get).2 n

/-! ## Concrete scenario data (for counterexamples and witnesses) -/

/-- Zero value of `Question`. -/
def qDefault : Question :=
  { ID := "", Text := "", Options := [], CorrectAnswer := 0, Explanation := "",
    Topic := "", CreatedAt := 0, Status := "", RevisionCount := 0 }

/-- A question that has hit the revision cap. -/
def qRevLimit : Question :=
  { qDefault with
    ID := "q3", Topic := "t", Options := ["A", "B", "C", "D"],
    RevisionCount := 3 }

/-- A fresh, never-revised question. -/
def qFresh : Question :=
  { qDefault with
    ID := "q0", Topic := "t", Options := ["A", "B", "C", "D"],
    CorrectAnswer := 1, RevisionCount := 0 }

/-- A question with only three options (shuffle must skip it). -/
def qThree : Question :=
  { qDefault with ID := "qz", Options := ["A", "B", "C"], CorrectAnswer := 0 }

/-- Checker tool reply asking for a revision. -/
def rpW : RevisedPayload :=
  { text := "better", options := ["A", "B", "C", "D"], correctAnswer := 2,
    explanation := "why" }

def replyRevise : CheckerReply := .reply "needs work" ActionRevise (some rpW)

/-- The validation result `CheckQuestion qFresh replyRevise` produces. -/
def rqW : Question :=
  { ID := "q0", Text := "better", Options := ["A", "B", "C", "D"],
    CorrectAnswer := 2, Explanation := "why", Topic := "t", CreatedAt := 0,
    Status := StatusRevised, RevisionCount := 1 }

def vW : ValidationResult :=
  { QuestionID := "q0", Reason := "needs work", Action := ActionRevise,
    RevisedQuestion := some rqW }

/-- A structurally well-formed maker item. -/
def goodRaw : RawQuestion :=
  { text := "q", options := ["A", "B", "C", "D"], correctAnswer := 0,
    explanation := "e" }

/-- A malformed maker item (one option) that the pipeline happily emits when
the checker says accept. -/
def badRaw : RawQuestion :=
  { text := "q", options := ["A"], correctAnswer := 0, explanation := "e" }

/-- Happy-path oracle: one well-formed question per batch, checker accepts
everything, deduper never reports duplicates. -/
def happyOracle : Oracle :=
  { maker := fun _ => .reply [goodRaw],
    checker := fun _ => .reply "ok" ActionAccept none,
    dedup := fun _ => .reply false "distinct" "",
    shuffle := fun _ => (0, 0, 0),
    freshId := fun n => toString n }

/-- Oracle whose maker emits a malformed (1-option) question and whose
checker accepts it. -/
def badOracle : Oracle :=
  { happyOracle with maker := fun _ => .reply [badRaw] }

/-- Oracle that produces batches of five well-formed questions, all of which
the checker rejects. -/
def rejectOracle : Oracle :=
  { happyOracle with
      maker := fun _ => .reply [goodRaw, goodRaw, goodRaw, goodRaw, goodRaw],
      checker := fun _ => .reply "bad" ActionReject none }

/-- Oracle whose maker always fails. -/
def failOracle : Oracle :=
  { happyOracle with maker := fun _ => .err }

/-- A valid one-question request. -/
def reqOne : GenerationRequest :=
  { Topic := "golang", NumQuestions := 1, SourceMaterial := "", Difficulty := "" }

/-- An invalid request: empty topic. -/
def reqInvalid : GenerationRequest :=
  { Topic := "", NumQuestions := 1, SourceMaterial := "", Difficulty := "" }

/-- An invalid request: negative question count. -/
def reqNeg : GenerationRequest :=
  { Topic := "golang", NumQuestions := -1, SourceMaterial := "", Difficulty := "" }

/-- The single question the happy-path run emits. -/
def qEmittedW : Question :=
  ((runLoop reqOne happyOracle 3 initState).emitted).getD 0 qDefault

/-- Two distinct pool questions sharing the id "x" (breaks the FIFO). -/
def qX : Question := { qDefault with ID := "x", Text := "first" }

def qY : Question := { qDefault with ID := "x", Text := "second" }

/-- Two pool questions with distinct ids. -/
def qA : Question := { qDefault with ID := "a", Text := "alpha" }

def qB : Question := { qDefault with ID := "b", Text := "beta" }

/-! ## Association-list map lemmas -/

lemma lookupQ_mapErase_ne (l : List (String × Question)) (id id' : String)
    (h : id' ≠ id) : lookupQ (mapErase l id) id' = lookupQ l id' := by
  induction l with
  | nil => rfl
  | cons hd tl ih =>
    obtain ⟨k, v⟩ := hd
    by_cases hk : k = id
    · subst hk
      have : k ≠ id' := fun he => h (he ▸ rfl)
      simp [mapErase, lookupQ, this, ih]
    · simp only [mapErase, hk, if_false, lookupQ, ih]

lemma lookupQ_mapInsert_self (l : List (String × Question)) (id : String)
    (q : Question) : lookupQ (mapInsert l id q) id = some q := by
  simp [mapInsert, lookupQ]

lemma lookupQ_mapInsert_ne (l : List (String × Question)) (id id' : String)
    (q : Question) (h : id' ≠ id) :
    lookupQ (mapInsert l id q) id' = lookupQ l id' := by
  have : id ≠ id' := fun he => h he.symm
  simp [mapInsert, lookupQ, this, lookupQ_mapErase_ne l id id' h]

lemma mem_mapErase {l : List (String × Question)} {id : String}
    {p : String × Question} (h : p ∈ mapErase l id) : p ∈ l := by
  induction l with
  | nil => simp [mapErase] at h
  | cons hd tl ih =>
    obtain ⟨k, v⟩ := hd
    by_cases hk : k = id
    · simp only [mapErase, hk, if_true] at h
      exact List.mem_cons_of_mem _ (ih h)
    · simp only [mapErase, hk, if_false, List.mem_cons] at h
      rcases h with h | h
      · exact h ▸ List.mem_cons_self _ _
      · exact List.mem_cons_of_mem _ (ih h)

lemma mem_mapInsert {l : List (String × Question)} {id : String}
    {q : Question} {p : String × Question} (h : p ∈ mapInsert l id q) :
    p = (id, q) ∨ p ∈ l := by
  rcases List.mem_cons.mp h with h | h
  · exact Or.inl h
  · exact Or.inr (mem_mapErase h)

lemma lookupQ_mem {l : List (String × Question)} {id : String} {q : Question}
    (h : lookupQ l id = some q) : (id, q) ∈ l := by
  induction l with
  | nil => simp [lookupQ] at h
  | cons hd tl ih =>
    obtain ⟨k, v⟩ := hd
    by_cases hk : k = id
    · simp only [lookupQ, hk, if_true, Option.some.injEq] at h
      subst hk; subst h; exact List.mem_cons_self _ _
    · simp only [lookupQ, hk, if_false] at h
      exact List.mem_cons_of_mem _ (ih h)

/-! ## Pool FIFO lemmas -/

lemma addList_queue (qts : List (Question × Nat)) (p : QuestionPool) :
    (addList p qts).queue = p.queue ++ qts.map (fun qt => qt.1.ID) := by
  induction qts generalizing p with
  | nil => simp [addList]
  | cons hd tl ih =>
    obtain ⟨q, t⟩ := hd
    simp [addList, ih, QuestionPool.Add]

lemma addList_lookup_notin (qts : List (Question × Nat)) (p : QuestionPool)
    (id : String) (hid : id ∉ qts.map (fun qt => qt.1.ID)) :
    lookupQ (addList p qts).questions id = lookupQ p.questions id := by
  induction qts generalizing p with
  | nil => rfl
  | cons hd tl ih =>
    obtain ⟨q, t⟩ := hd
    simp only [List.map_cons, List.mem_cons, not_or] at hid
    rw [addList, ih _ hid.2]
    exact lookupQ_mapInsert_ne _ _ _ _ hid.1

lemma addList_lookup_mem (qts : List (Question × Nat)) (p : QuestionPool)
    (hnd : (qts.map (fun qt => qt.1.ID)).Nodup) (q : Question) (t : Nat)
    (hmem : (q, t) ∈ qts) :
    lookupQ (addList p qts).questions q.ID = some (stampQ q t) := by
  induction qts generalizing p with
  | nil => simp at hmem
  | cons hd tl ih =>
    obtain ⟨q0, t0⟩ := hd
    simp only [List.map_cons, List.nodup_cons] at hnd
    rcases List.mem_cons.mp hmem with heq | hmem'
    · obtain ⟨hq, ht⟩ := Prod.mk.injEq .. ▸ heq
      subst hq; subst ht
      rw [addList, addList_lookup_notin tl _ _ hnd.1]
      exact lookupQ_mapInsert_self _ _ _
    · exact ih _ hnd.2 hmem'

lemma drain_spec (qts : List (Question × Nat)) (p : QuestionPool)
    (hq : p.queue = qts.map (fun qt => qt.1.ID))
    (hnd : (qts.map (fun qt => qt.1.ID)).Nodup)
    (hlk : ∀ q t, (q, t) ∈ qts → lookupQ p.questions q.ID = some (stampQ q t)) :
    drain p qts.length = qts.map (fun qt => some (stampQ qt.1 qt.2)) := by
  induction qts generalizing p with
  | nil => rfl
  | cons hd tl ih =>
    obtain ⟨q, t⟩ := hd
    simp only [List.map_cons, List.nodup_cons] at hnd
    have hget : p.Get = (lookupQ p.questions q.ID,
        { questions := mapErase p.questions q.ID,
          queue := tl.map (fun qt => qt.1.ID) }) := by
      simp only [QuestionPool.Get, hq, List.map_cons]
    have hhead : (p.Get).1 = some (stampQ q t) := by
      rw [hget]; exact hlk q t (List.mem_cons_self _ _)
    have htail : drain (p.Get).2 tl.length
        = tl.map (fun qt => some (stampQ qt.1 qt.2)) := by
      refine ih (p.Get).2 ?_ hnd.2 ?_
      · rw [hget]
      · intro q' t' hm
        rw [hget]
        have hne : q'.ID ≠ q.ID := by
          intro he
          exact hnd.1 (he ▸ List.mem_map_of_mem (fun qt => qt.1.ID) hm)
        calc lookupQ (mapErase p.questions q.ID) q'.ID
            = lookupQ p.questions q'.ID := lookupQ_mapErase_ne _ _ _ hne
          _ = some (stampQ q' t') := hlk q' t' (List.mem_cons_of_mem _ hm)
    simp only [List.length_cons, drain, hhead, htail, List.map_cons]

/-! ## Shuffle lemmas -/

lemma fyIndices_perm (r3 r2 r1 : Nat) : (fyIndices r3 r2 r1).Perm [0, 1, 2, 3] := by
  have h : ∀ a < 4, ∀ b < 3, ∀ c < 2,
      (listSwap (listSwap (listSwap [0, 1, 2, 3] 3 a) 2 b) 1 c).Perm [0, 1, 2, 3] := by
    decide
  exact h (r3 % 4) (Nat.mod_lt _ (by norm_num)) (r2 % 3) (Nat.mod_lt _ (by norm_num))
    (r1 % 2) (Nat.mod_lt _ (by norm_num))

lemma fyIndices_length (r3 r2 r1 : Nat) : (fyIndices r3 r2 r1).length = 4 :=
  (fyIndices_perm r3 r2 r1).length_eq

lemma findNewCA_spec (r3 r2 r1 : Nat) (n : Nat) (hn : n < 4) :
    0 ≤ findNewCA (fyIndices r3 r2 r1) (n : Int) ∧
    findNewCA (fyIndices r3 r2 r1) (n : Int) ≤ 3 ∧
    (fyIndices r3 r2 r1).getD (findNewCA (fyIndices r3 r2 r1) (n : Int)).toNat 9 = n := by
  have h : ∀ a : Nat, a < 4 → ∀ b : Nat, b < 3 → ∀ c : Nat, c < 2 →
      ∀ m : Nat, m < 4 →
      0 ≤ findNewCA (listSwap (listSwap (listSwap [0, 1, 2, 3] 3 a) 2 b) 1 c) (m : Int) ∧
      findNewCA (listSwap (listSwap (listSwap [0, 1, 2, 3] 3 a) 2 b) 1 c) (m : Int) ≤ 3 ∧
      ((listSwap (listSwap (listSwap [0, 1, 2, 3] 3 a) 2 b) 1 c).getD
        (findNewCA (listSwap (listSwap (listSwap [0, 1, 2, 3] 3 a) 2 b) 1 c) (m : Int)).toNat 9
        : Nat) = m := by
    decide
  exact h (r3 % 4) (Nat.mod_lt _ (by norm_num)) (r2 % 3) (Nat.mod_lt _ (by norm_num))
    (r1 % 2) (Nat.mod_lt _ (by norm_num)) n hn

lemma map_getD_of_length_four (l : List String) (h : l.length = 4) :
    [0, 1, 2, 3].map (fun i => l.getD i "") = l := by
  rcases l with _ | ⟨a, _ | ⟨b, _ | ⟨c, _ | ⟨d, _ | ⟨e, t⟩⟩⟩⟩⟩ <;>
    first
      | rfl
      | (simp only [List.length] at h; omega)

lemma getD_map_of_lt (f : Nat → String) (l : List Nat) (n : Nat)
    (h : n < l.length) (d : String) :
    (l.map f).getD n d = f (l.getD n 9) := by
  induction l generalizing n with
  | nil => simp at h
  | cons hd tl ih =>
    cases n with
    | zero => rfl
    | succ m =>
        show (tl.map f).getD m d = f (tl.getD m 9)
        exact ih m (Nat.lt_of_succ_lt_succ h)

lemma randomize_skip {q : Question} (r3 r2 r1 : Nat)
    (h : q.Options.length ≠ 4) : randomizeAnswerOrder q r3 r2 r1 = q := by
  simp [randomizeAnswerOrder, h]

lemma randomize_eq {q : Question} (r3 r2 r1 : Nat) (h4 : q.Options.length = 4) :
    randomizeAnswerOrder q r3 r2 r1 =
      { q with
        Options := (fyIndices r3 r2 r1).map (fun i => q.Options.getD i ""),
        CorrectAnswer := findNewCA (fyIndices r3 r2 r1) q.CorrectAnswer } := by
  have hne : ¬ (q.Options.length ≠ 4) := by simp [h4]
  simp only [randomizeAnswerOrder, if_neg hne]

lemma randomize_perm {q : Question} (r3 r2 r1 : Nat)
    (h4 : q.Options.length = 4) :
    (randomizeAnswerOrder q r3 r2 r1).Options.Perm q.Options := by
  rw [randomize_eq r3 r2 r1 h4]
  have heq : [0, 1, 2, 3].map (fun i => q.Options.getD i "") = q.Options :=
    map_getD_of_length_four _ h4
  exact heq ▸ ((fyIndices_perm r3 r2 r1).map (fun i => q.Options.getD i ""))

lemma randomize_correct {q : Question} (r3 r2 r1 : Nat)
    (h4 : q.Options.length = 4) (h0 : 0 ≤ q.CorrectAnswer)
    (h3 : q.CorrectAnswer ≤ 3) :
    (randomizeAnswerOrder q r3 r2 r1).Options.getD
        (randomizeAnswerOrder q r3 r2 r1).CorrectAnswer.toNat ""
      = q.Options.getD q.CorrectAnswer.toNat "" := by
  have hca : ((q.CorrectAnswer.toNat : Nat) : Int) = q.CorrectAnswer :=
    Int.toNat_of_nonneg h0
  have hn4 : q.CorrectAnswer.toNat < 4 := by omega
  obtain ⟨hge, hle, hidx⟩ := findNewCA_spec r3 r2 r1 q.CorrectAnswer.toNat hn4
  rw [hca] at hge hle hidx
  rw [randomize_eq r3 r2 r1 h4]
  have hlt : (findNewCA (fyIndices r3 r2 r1) q.CorrectAnswer).toNat
      < (fyIndices r3 r2 r1).length := by
    rw [fyIndices_length]; omega
  show ((fyIndices r3 r2 r1).map (fun i => q.Options.getD i "")).getD
      (findNewCA (fyIndices r3 r2 r1) q.CorrectAnswer).toNat ""
    = q.Options.getD q.CorrectAnswer.toNat ""
  rw [getD_map_of_lt _ _ _ hlt, hidx]

lemma randomize_inv (q : Question) (r3 r2 r1 : Nat)
    (h4 : q.Options.length = 4) (h0 : 0 ≤ q.CorrectAnswer)
    (h3 : q.CorrectAnswer ≤ 3) :
    (randomizeAnswerOrder q r3 r2 r1).Options.length = 4 ∧
    0 ≤ (randomizeAnswerOrder q r3 r2 r1).CorrectAnswer ∧
    (randomizeAnswerOrder q r3 r2 r1).CorrectAnswer ≤ 3 := by
  have hca : ((q.CorrectAnswer.toNat : Nat) : Int) = q.CorrectAnswer :=
    Int.toNat_of_nonneg h0
  have hn4 : q.CorrectAnswer.toNat < 4 := by omega
  obtain ⟨hge, hle, _⟩ := findNewCA_spec r3 r2 r1 q.CorrectAnswer.toNat hn4
  rw [hca] at hge hle
  refine ⟨?_, ?_, ?_⟩
  · rw [(randomize_perm r3 r2 r1 h4).length_eq, h4]
  · rw [randomize_eq r3 r2 r1 h4]; exact hge
  · rw [randomize_eq r3 r2 r1 h4]; exact hle

lemma randomize_fields (q : Question) (r3 r2 r1 : Nat) :
    (randomizeAnswerOrder q r3 r2 r1).ID = q.ID ∧
    (randomizeAnswerOrder q r3 r2 r1).Status = q.Status ∧
    (randomizeAnswerOrder q r3 r2 r1).Topic = q.Topic ∧
    (randomizeAnswerOrder q r3 r2 r1).RevisionCount = q.RevisionCount := by
  unfold randomizeAnswerOrder
  split <;> simp

/-! ## Checker lemmas -/

/-- Characterization of a revision produced by `CheckQuestion`: it only
arises from a below-cap gateway reply, keeps the id and the topic, and bumps
the revision count by one. -/
lemma CheckQuestion_revised {question : Question} {reply : CheckerReply}
    {v : ValidationResult} {rq : Question}
    (hv : (CheckQuestion question reply).1 = some v)
    (hrq : v.RevisedQuestion = some rq) :
    ∃ reason action rp, reply = .reply reason action (some rp) ∧
      action = ActionRevise ∧
      rq.ID = question.ID ∧ rq.Topic = question.Topic ∧
      rq.RevisionCount = question.RevisionCount + 1 ∧
      question.RevisionCount < 3 ∧
      rq.Options = rp.options ∧ rq.CorrectAnswer = rp.correctAnswer := by
  unfold CheckQuestion at hv
  by_cases hc : question.RevisionCount ≥ 3
  · rw [if_pos hc] at hv
    simp only [Option.some.injEq] at hv
    rw [← hv] at hrq
    simp at hrq
  · rw [if_neg hc] at hv
    match reply with
    | .err => simp at hv
    | .reply reason action revised =>
        simp only [Option.some.injEq] at hv
        rw [← hv] at hrq
        simp only at hrq
        by_cases ha : action = ActionRevise
        · rw [if_pos ha] at hrq
          rcases Option.map_eq_some'.mp hrq with ⟨rp, hrp, hfq⟩
          subst hrp
          refine ⟨reason, action, rp, rfl, ha, ?_, ?_, ?_, by omega, ?_, ?_⟩ <;>
            rw [← hfq]
        · rw [if_neg ha] at hrq
          simp at hrq

/-! ## Orchestrator invariant preservation -/

lemma PoolInv_Add {topic : String} {qp : QuestionPool} {q : Question}
    {t : Nat} (h : PoolInv topic qp) (hq : QInv topic q) :
    PoolInv topic (qp.Add q t) := by
  intro p hp
  rcases mem_mapInsert hp with he | hm
  · rw [he]
    exact hq
  · exact h _ hm

lemma PoolInv_Get {topic : String} {qp : QuestionPool} (h : PoolInv topic qp) :
    (∀ q, (qp.Get).1 = some q → QInv topic q) ∧ PoolInv topic (qp.Get).2 := by
  unfold QuestionPool.Get
  match hq : qp.queue with
  | [] => exact ⟨fun q hq => by simp at hq, h⟩
  | id :: rest =>
      constructor
      · intro q hlk
        exact h _ (lookupQ_mem hlk)
      · intro p hp
        exact h _ (mem_mapErase hp)

lemma makeQuestions_inv (topic : String) (freshId : Nat → String) :
    ∀ (base : Nat) (raws : List RawQuestion), (∀ r ∈ raws, WFRaw r) →
    ∀ q ∈ makeQuestions topic freshId base raws, QInv topic q := by
  intro base raws
  induction raws generalizing base with
  | nil => intro _ q hq; simp [makeQuestions] at hq
  | cons r rest ih =>
      intro hwf q hq
      rcases List.mem_cons.mp hq with he | hm
      · obtain ⟨h4, h0, h3⟩ := hwf r (List.mem_cons_self _ _)
        rw [he]
        exact ⟨h4, h0, h3, by norm_num, by norm_num, rfl⟩
      · exact ih (base + 1) (fun r' hr' => hwf r' (List.mem_cons_of_mem _ hr')) q hm

lemma addBatch_inv {topic : String} :
    ∀ (qs : List Question) (pool : QuestionPool) (t : Nat),
    PoolInv topic pool → (∀ q ∈ qs, QInv topic q) →
    PoolInv topic (addBatch pool t qs).1 := by
  intro qs
  induction qs with
  | nil => intro pool t hp _; exact hp
  | cons q rest ih =>
      intro pool t hp hqs
      exact ih _ _ (PoolInv_Add hp (hqs q (List.mem_cons_self _ _)))
        (fun q' hq' => hqs q' (List.mem_cons_of_mem _ hq'))

lemma refillPhase_inv {req : GenerationRequest} {oracle : Oracle}
    {s : GenState} (hO : WFOracle oracle) (h : StateInv req.Topic s) :
    StateInv req.Topic (refillPhase req oracle s).1 := by
  obtain ⟨hpool, hemit⟩ := h
  unfold refillPhase
  split
  · match hm : oracle.maker s.makerCalls with
    | .err => exact ⟨hpool, hemit⟩
    | .reply raws =>
        refine ⟨?_, hemit⟩
        exact addBatch_inv _ _ _ hpool
          (makeQuestions_inv _ _ _ _ (hO.1 _ _ hm))
  · exact ⟨hpool, hemit⟩

lemma processPhase_inv {topic : String} {oracle : Oracle} {s : GenState}
    (hO : WFOracle oracle) (h : StateInv topic s) :
    StateInv topic (processPhase oracle s).1 := by
  obtain ⟨hpool, hemit⟩ := h
  obtain ⟨hget1, hget2⟩ := PoolInv_Get hpool
  unfold processPhase
  dsimp only
  split
  · exact ⟨hpool, hemit⟩
  · split
    next hg => exact ⟨hget2, hemit⟩
    next question hg =>
      have hq : QInv topic question := hget1 _ hg
      split
      next hv => exact ⟨PoolInv_Add hget2 hq, hemit⟩
      next validation hv =>
        split
        · -- validation accepted: dedup, shuffle, emit
          split
          next hd => exact ⟨PoolInv_Add hget2 hq, hemit⟩
          next dedupResult hd =>
            split
            · exact ⟨hget2, hemit⟩
            · refine ⟨hget2, ?_⟩
              intro q hmem
              rcases List.mem_append.mp hmem with hold | hnew
              · exact hemit q hold
              · rw [List.mem_singleton.mp hnew]
                obtain ⟨h4, h0, h3, _, hrc, htop⟩ := hq
                obtain ⟨hl, hg0, hl3⟩ := randomize_inv
                  { question with Status := StatusAccepted }
                  (oracle.shuffle s.shuffles).1
                  (oracle.shuffle s.shuffles).2.1
                  (oracle.shuffle s.shuffles).2.2 h4 h0 h3
                obtain ⟨-, hst, htp, hrv⟩ := randomize_fields
                  { question with Status := StatusAccepted }
                  (oracle.shuffle s.shuffles).1
                  (oracle.shuffle s.shuffles).2.1
                  (oracle.shuffle s.shuffles).2.2
                refine ⟨hl, hg0, hl3, hst, ?_, ?_⟩
                · rw [hrv]; exact hrc
                · rw [htp]; exact htop
        · -- not accepted: maybe re-enqueue a revision
          split
          · split
            next revised hr =>
              obtain ⟨reason, action, rp, hrep, -, -, htp, hrc, hlt, hop, hca⟩ :=
                CheckQuestion_revised hv hr
              have hwf : WFRev rp := hO.2 _ _ _ _ hrep
              obtain ⟨hq4, hq0, hq3, hqr0, -, hqt⟩ := hq
              refine ⟨PoolInv_Add hget2 ?_, hemit⟩
              refine ⟨hop ▸ hwf.1, hca ▸ hwf.2.1, hca ▸ hwf.2.2,
                by omega, by omega, ?_⟩
              rw [htp]; exact hqt
            next hr => exact ⟨hget2, hemit⟩
          · exact ⟨hget2, hemit⟩

lemma step_inv {req : GenerationRequest} {oracle : Oracle} {s : GenState}
    (hO : WFOracle oracle) (h : StateInv req.Topic s) (s' : GenState) :
    (step req oracle s = .halt s' → StateInv req.Topic s') ∧
    (step req oracle s = .next s' → StateInv req.Topic s') := by
  have h1 := refillPhase_inv hO h
  unfold step
  split
  next s1 heq =>
    rw [heq] at h1
    refine ⟨fun he => ?_, fun he => ?_⟩
    · cases he; exact h1
    · cases he
  next s1 heq =>
    rw [heq] at h1
    have h1' : StateInv req.Topic s1 := h1
    have h2 := processPhase_inv hO h1'
    split
    next s2 hp =>
      rw [hp] at h2
      split
      · refine ⟨fun he => ?_, fun he => ?_⟩
        · cases he
        · cases he; exact h2
      · refine ⟨fun he => ?_, fun he => ?_⟩
        · cases he
        · cases he; exact h2
    next s2 hp =>
      rw [hp] at h2
      refine ⟨fun he => ?_, fun he => ?_⟩
      · cases he
      · cases he; exact h2

lemma runLoop_inv {req : GenerationRequest} {oracle : Oracle}
    (hO : WFOracle oracle) :
    ∀ (fuel : Nat) (s : GenState), StateInv req.Topic s →
    StateInv req.Topic (runLoop req oracle fuel s) := by
  intro fuel
  induction fuel with
  | zero => intro s h; exact h
  | succ n ih =>
      intro s h
      unfold runLoop
      split
      · split
        next s' hs => exact (step_inv hO h s').1 hs
        next s' hs => exact ih s' ((step_inv hO h s').2 hs)
      · exact h

/-! ## Claim theorems -/

/-- Claim C1: for every Question with exactly four options and
correctAnswer in 0..3, `randomizeAnswerOrder` permutes the options and the
option at the new correctAnswer index is the same string as the option at
the original correctAnswer index; a Question whose options list does not
have length 4 is left unchanged. -/
theorem C1_randomizeAnswerOrder (question : Question) (r3 r2 r1 : Nat) :
    (question.Options.length = 4 → 0 ≤ question.CorrectAnswer →
      question.CorrectAnswer ≤ 3 →
      (randomizeAnswerOrder question r3 r2 r1).Options.Perm question.Options ∧
      (randomizeAnswerOrder question r3 r2 r1).Options.getD
          (randomizeAnswerOrder question r3 r2 r1).CorrectAnswer.toNat ""
        = question.Options.getD question.CorrectAnswer.toNat "") ∧
    (question.Options.length ≠ 4 →
      randomizeAnswerOrder question r3 r2 r1 = question) :=
  ⟨fun h4 h0 h3 =>
    ⟨randomize_perm r3 r2 r1 h4, randomize_correct r3 r2 r1 h4 h0 h3⟩,
   fun h => randomize_skip r3 r2 r1 h⟩

/-- Claim C1, witness: a concrete 4-option question is shuffled with the
correct option preserved, and a 3-option question is left unchanged. -/
theorem C1_witness :
    ((randomizeAnswerOrder qFresh 5 4 3).Options.Perm qFresh.Options ∧
      (randomizeAnswerOrder qFresh 5 4 3).Options.getD
          (randomizeAnswerOrder qFresh 5 4 3).CorrectAnswer.toNat ""
        = qFresh.Options.getD qFresh.CorrectAnswer.toNat "") ∧
    randomizeAnswerOrder qThree 0 0 0 = qThree :=
  ⟨(C1_randomizeAnswerOrder qFresh 5 4 3).1 (by decide) (by decide) (by decide),
   (C1_randomizeAnswerOrder qThree 0 0 0).2 (by decide)⟩

/-- Helper for claim C3: the cap-rejection reason contains the substring
"revision". -/
lemma reason_split (rc : Int) :
    "Question rejected after " ++ toString rc
        ++ " revision attempts to prevent infinite loop"
      = ("Question rejected after " ++ toString rc ++ " ") ++ "revision"
        ++ " attempts to prevent infinite loop" := by
  have h : (" revision attempts to prevent infinite loop" : String)
      = " " ++ ("revision" ++ " attempts to prevent infinite loop") := by decide
  rw [h]
  simp [String.append_assoc]

/-- Claim C3: at RevisionCount >= 3, `CheckQuestion` rejects with a reason
containing "revision" and makes no gateway call; below 3 the gateway is
consulted. -/
theorem C3_revisionCap (question : Question) (reply : CheckerReply) :
    (3 ≤ question.RevisionCount →
      (CheckQuestion question reply).2 = false ∧
      ∃ v, (CheckQuestion question reply).1 = some v ∧
        v.Action = ActionReject ∧ ∃ s t, v.Reason = s ++ "revision" ++ t) ∧
    (question.RevisionCount < 3 →
      (CheckQuestion question reply).2 = true) := by
  constructor
  · intro hc
    unfold CheckQuestion
    rw [if_pos hc]
    exact ⟨rfl, _, rfl, rfl, _, _, reason_split question.RevisionCount⟩
  · intro hc
    unfold CheckQuestion
    rw [if_neg (by omega)]
    match reply with
    | .err => rfl
    | .reply reason action revised => rfl

/-- Claim C3, witness: a question at the cap is rejected without a gateway
call; a fresh question triggers a gateway call. -/
theorem C3_witness :
    ((CheckQuestion qRevLimit CheckerReply.err).2 = false ∧
      ∃ v, (CheckQuestion qRevLimit CheckerReply.err).1 = some v ∧
        v.Action = ActionReject ∧ ∃ s t, v.Reason = s ++ "revision" ++ t) ∧
    (CheckQuestion qFresh CheckerReply.err).2 = true :=
  ⟨(C3_revisionCap qRevLimit .err).1 (by decide),
   (C3_revisionCap qFresh .err).2 (by decide)⟩

/-- Claim C4: a revised question returned by `CheckQuestion` keeps the
input's id and topic and has revision count one greater. -/
theorem C4_reviseMetadata (question : Question) (reply : CheckerReply)
    (v : ValidationResult) (rq : Question)
    (hv : (CheckQuestion question reply).1 = some v)
    (_ha : v.Action = ActionRevise)
    (hrq : v.RevisedQuestion = some rq) :
    rq.ID = question.ID ∧ rq.RevisionCount = question.RevisionCount + 1 ∧
    rq.Topic = question.Topic := by
  obtain ⟨reason, action, rp, hrep, hact, hid, htp, hrc, hlt, hop, hca⟩ :=
    CheckQuestion_revised hv hrq
  exact ⟨hid, hrc, htp⟩

/-- Claim C4, witness: a concrete revise reply produces a revision with the
same id, topic and incremented revision count. -/
theorem C4_witness :
    rqW.ID = qFresh.ID ∧ rqW.RevisionCount = qFresh.RevisionCount + 1 ∧
    rqW.Topic = qFresh.Topic :=
  C4_reviseMetadata qFresh replyRevise vW rqW (by decide) (by decide) (by decide)

/-- Claim C5: the deduper caches the candidate iff the call returns a
non-duplicate result: on an empty cache it seeds without a gateway call; on
a duplicate verdict or a gateway error the cache is unchanged; keys are
never removed, so the accepted-set grows monotonically. -/
theorem C5_dedupState (cache : List (String × Question)) (question : Question)
    (reply : DedupReply) :
    (cache = [] →
      (CheckDuplicate cache question reply).1
          = some { IsDuplicate := false, Reason := "First question",
                   DuplicateID := "" } ∧
      (CheckDuplicate cache question reply).2.2 = false ∧
      (CheckDuplicate cache question reply).2.1 = [(question.ID, question)]) ∧
    (∀ r, (CheckDuplicate cache question reply).1 = some r →
      r.IsDuplicate = false →
      lookupQ (CheckDuplicate cache question reply).2.1 question.ID
        = some question) ∧
    (∀ r, (CheckDuplicate cache question reply).1 = some r →
      r.IsDuplicate = true →
      (CheckDuplicate cache question reply).2.1 = cache) ∧
    ((CheckDuplicate cache question reply).1 = none →
      (CheckDuplicate cache question reply).2.1 = cache) ∧
    (∀ id q, lookupQ cache id = some q →
      ∃ q', lookupQ (CheckDuplicate cache question reply).2.1 id = some q') := by
  unfold CheckDuplicate
  by_cases hc : cache.isEmpty
  · rw [if_pos hc]
    have hnil : cache = [] := List.isEmpty_iff.mp hc
    subst hnil
    refine ⟨fun _ => ⟨rfl, rfl, rfl⟩, ?_, ?_, ?_, ?_⟩
    · intro r hr hdup
      exact lookupQ_mapInsert_self _ _ _
    · intro r hr hdup
      injection hr with hr
      rw [← hr] at hdup
      simp at hdup
    · intro hnone
      simp at hnone
    · intro id q hlk
      simp [lookupQ] at hlk
  · rw [if_neg hc]
    have hne : cache ≠ [] := fun h => hc (h ▸ rfl)
    match reply with
    | .err =>
        refine ⟨fun h => absurd h hne, ?_, ?_, fun _ => rfl, ?_⟩
        · intro r hr _; simp at hr
        · intro r hr _; simp at hr
        · intro id q hlk; exact ⟨q, hlk⟩
    | .reply isDup reason dupId =>
        refine ⟨fun h => absurd h hne, ?_, ?_, ?_, ?_⟩
        · intro r hr hdup
          injection hr with hr
          rw [← hr] at hdup
          simp only at hdup
          subst hdup
          simp only [Bool.not_false, if_pos]
          exact lookupQ_mapInsert_self _ _ _
        · intro r hr hdup
          injection hr with hr
          rw [← hr] at hdup
          simp only at hdup
          subst hdup
          simp
        · intro hnone; simp at hnone
        · intro id q hlk
          by_cases hd : isDup
          · subst hd; exact ⟨q, by simpa using hlk⟩
          · have hd' : isDup = false := by simpa using hd
            subst hd'
            dsimp only
            by_cases hid : id = question.ID
            · refine ⟨question, ?_⟩
              rw [hid, if_pos (by decide : ¬(false = true))]
              exact lookupQ_mapInsert_self cache question.ID question
            · refine ⟨q, ?_⟩
              rw [if_pos (by decide : ¬(false = true))]
              rw [lookupQ_mapInsert_ne _ _ _ _ hid]
              exact hlk

/-- Claim C5, witness: seeding on the empty cache without a gateway call,
and an unchanged cache on a duplicate verdict. -/
theorem C5_witness :
    ((CheckDuplicate [] qFresh DedupReply.err).1
        = some { IsDuplicate := false, Reason := "First question",
                 DuplicateID := "" } ∧
      (CheckDuplicate [] qFresh DedupReply.err).2.2 = false ∧
      (CheckDuplicate [] qFresh DedupReply.err).2.1 = [(qFresh.ID, qFresh)]) ∧
    (CheckDuplicate [("q0", qFresh)] qRevLimit
        (DedupReply.reply true "dup" "q0")).2.1 = [("q0", qFresh)] :=
  ⟨(C5_dedupState [] qFresh .err).1 rfl,
   (C5_dedupState [("q0", qFresh)] qRevLimit (.reply true "dup" "q0")).2.2.1
     { IsDuplicate := true, Reason := "dup", DuplicateID := "q0" }
     (by decide) (by decide)⟩

/-- Claim C9, counterexample: two Adds that share an id break the FIFO —
the first Get returns the second question and the second Get returns nil,
because the id map holds one entry per id. -/
theorem C9_counterexample :
    drain (addList NewQuestionPool [(qX, 0), (qY, 1)]) 2
      ≠ [some (stampQ qX 0), some (stampQ qY 1)] := by decide

/-- Claim C9 (amended: the added questions carry pairwise-distinct ids):
the pool is a FIFO — Gets return the questions in insertion order, Get on
an empty pool returns nil, and Add stores the question with tentative
status and the stamped creation time. -/
theorem C9_fifo (qts : List (Question × Nat))
    (hids : (qts.map (fun qt => qt.1.ID)).Nodup) :
    drain (addList NewQuestionPool qts) qts.length
        = qts.map (fun qt => some (stampQ qt.1 qt.2)) ∧
    (NewQuestionPool.Get).1 = none ∧
    ∀ (p : QuestionPool) (q : Question) (t : Nat),
      lookupQ ((p.Add q t).questions) q.ID = some (stampQ q t) := by
  refine ⟨?_, rfl, ?_⟩
  · refine drain_spec qts _ ?_ hids ?_
    · rw [addList_queue]; rfl
    · intro q t hm
      exact addList_lookup_mem qts _ hids q t hm
  · intro p q t
    exact lookupQ_mapInsert_self _ _ _

/-- Claim C9, witness: two distinct-id Adds drain in insertion order. -/
theorem C9_witness :
    drain (addList NewQuestionPool [(qA, 0), (qB, 1)]) 2
        = [some (stampQ qA 0), some (stampQ qB 1)] ∧
    (NewQuestionPool.Get).1 = none :=
  ⟨(C9_fifo [(qA, 0), (qB, 1)] (by decide)).1,
   (C9_fifo [(qA, 0), (qB, 1)] (by decide)).2.1⟩

/-- Claim C2, counterexample: nothing in the code enforces the structural
invariants — a maker batch with a 1-option question that the checker
accepts is emitted as-is (the shuffle skips it), so an emitted question need
not have four options. -/
theorem C2_counterexample :
    ∃ out, GenerateQuizStream reqOne badOracle 2 = some out ∧
      ¬ (∀ q ∈ out.1.emitted,
          q.Options.length = 4 ∧ 0 ≤ q.CorrectAnswer ∧ q.CorrectAnswer ≤ 3 ∧
          q.Status = StatusAccepted ∧ q.RevisionCount ≤ 3 ∧
          q.Topic = reqOne.Topic) :=
  ⟨_, rfl, by decide⟩

/-- Claim C2 (amended: assuming every maker-batch item and every checker
revision payload is structurally well-formed — four options, correct answer
in 0..3): every question emitted on the outbound channel of
`GenerateQuizStream` has exactly four options, a correct answer in 0..3,
accepted status, revision count at most 3, and the request's topic. -/
theorem C2_streamInvariants (req : GenerationRequest) (oracle : Oracle)
    (fuel : Nat) (hO : WFOracle oracle) (out : GenState × Option String)
    (hout : GenerateQuizStream req oracle fuel = some out) :
    ∀ q ∈ out.1.emitted, EInv req.Topic q := by
  unfold GenerateQuizStream at hout
  split at hout
  · cases hout
  · have hinit : StateInv req.Topic initState := by
      constructor
      · intro p hp
        simp [initState, NewQuestionPool] at hp
      · intro q hq
        simp [initState] at hq
    obtain ⟨hpool, hemit⟩ := runLoop_inv hO fuel initState hinit
    have hout' : out = (runLoop req oracle fuel initState, none) := by
      injection hout with h
      exact h.symm
    subst hout'
    exact hemit

/-- Claim C2, witness: in a concrete well-formed happy-path run the emitted
question satisfies all the invariants. -/
theorem C2_witness : EInv reqOne.Topic qEmittedW := by
  have hO : WFOracle happyOracle := by
    constructor
    · intro n raws hr r hrr
      simp only [happyOracle] at hr
      injection hr with hr
      subst hr
      rcases List.mem_singleton.mp hrr with rfl
      exact ⟨by decide, by decide, by decide⟩
    · intro n reason action rp hr
      simp only [happyOracle] at hr
      injection hr with h1 h2 h3
      cases h3
  exact C2_streamInvariants reqOne happyOracle 3 hO
    (runLoop reqOne happyOracle 3 initState, none) rfl qEmittedW (by decide)

/-- Claim C6, counterexample: an invalid request (empty topic) still gets a
`nil` error from `GenerateQuizStream` — no input validation exists, so the
"non-nil error iff invalid" equivalence fails. -/
theorem C6_counterexample :
    reqInvalid.Topic = "" ∧
    (GenerateQuizStream reqInvalid failOracle 1).map Prod.snd = some none :=
  ⟨rfl, by decide⟩

/-- Claim C6 (amended): `GenerateQuizStream` never returns a non-nil error;
for every request with a non-negative count (negative counts panic, see
C10) it returns the channel together with a `nil` error and starts the
producer, whether or not the topic is empty or the count is zero. -/
theorem C6_noError (req : GenerationRequest) (oracle : Oracle) (fuel : Nat)
    (h : 0 ≤ req.NumQuestions) :
    (GenerateQuizStream req oracle fuel).map Prod.snd = some none := by
  unfold GenerateQuizStream
  rw [if_neg (by omega)]
  rfl

/-- Claim C6, witness: a valid request gets a nil error. -/
theorem C6_witness :
    (GenerateQuizStream reqOne failOracle 1).map Prod.snd = some none :=
  C6_noError reqOne failOracle 1 (by decide)

/-- Claim C7, code-bug evidence: when the stream closes after zero of one
requested questions (maker failure on the first batch), `GenerateQuiz`
panics — `acceptedQuestions[:req.NumQuestions]` re-extends the slice over
nil pointers and `*q` dereferences nil (`none`) — instead of returning the
partial quiz with a non-nil error. -/
theorem C7_collectPanics : GenerateQuiz reqOne failOracle 2 "quizid" = none := by
  decide

/-- Claim C8, code-bug evidence: after a first batch of five questions all
rejected by the checker, the second maker call again requests 5 (not 7):
every reject path `continue`s past the `batchSize = min(batchSize+2, 10)`
statement, so the adaptive increase never fires on rejections. -/
theorem C8_secondBatchStaysFive :
    (GenerateQuizStream reqOne rejectOracle 6).map (fun out => out.1.makerBatchLog)
      = some [5, 5] := by
  decide

/-- Claim C10: for every request with a strictly negative numQuestions,
`GenerateQuizStream` panics allocating the outbound channel
(`make(chan *Question, req.NumQuestions)` with a negative buffer size),
modelled as `none`. -/
theorem C10_negativeCountPanics (req : GenerationRequest) (oracle : Oracle)
    (fuel : Nat) (h : req.NumQuestions < 0) :
    GenerateQuizStream req oracle fuel = none := by
  unfold GenerateQuizStream
  rw [if_pos h]

/-- Claim C10, witness: a request for -1 questions panics. -/
theorem C10_witness : GenerateQuizStream reqNeg failOracle 1 = none :=
  C10_negativeCountPanics reqNeg failOracle 1 (by decide)

end Quizgenerator
